import Mathlib

/-!
Verification of the background execution core of the Social-Growth-Suite
repository: the rate-limiting middleware (src/middleware/rateLimiter.ts
together with the counter operations of src/services/RedisService.ts), the
scheduler jobs (SchedulerService: processScheduledPosts and cleanupOldData),
and the notification store (NotificationService.createNotification).

Machine integers of the source are modelled as Nat (all quantities involved
are non-negative counters and millisecond timestamps and never approach any
overflow boundary in the scenarios considered).  Fallible external calls
(Redis, Postgres, the platform publish call) are modelled with explicit
failure oracles: a Bool per store operation saying whether that operation
raises, and an Option String outcome for the platform publish call.
-/

/-! ## Key-value counter store (RedisService get / setEx)

The rate limiter stores a stringified counter under a key with a
time-to-live.  Every value that is ever written is the decimal rendering of
a natural number and is read back through parseInt, so the stored value is
modelled directly as a Nat.  An entry records its absolute expiry time in
milliseconds; GET on a key whose expiry has passed behaves as if the key
were absent, which is exactly the observable TTL contract of the store. -/

structure KVEntry where
  key : String
  value : Nat
  expiresAt : Nat
deriving DecidableEq

abbrev KVStore := List KVEntry

/-- Model of RedisService.get restricted to counter keys: the stored value
if the key is present and not yet expired at time now, otherwise none. -/
def kvGet (s : KVStore) (k : String) (now : Nat) : Option Nat :=
  match s.find? (fun en => en.key == k) with
  | some en => if now < en.expiresAt then some en.value else none
  | none => none

/-- Model of RedisService.set with expireInSeconds (client.setEx): replace
any entry for the key with the new value, expiring at the given absolute
time. -/
def kvSet (s : KVStore) (k : String) (v : Nat) (e : Nat) : KVStore :=
  s.filter (fun en => !(en.key == k)) ++ [⟨k, v, e⟩]

/-- Absolute expiry time currently recorded for a key, if any. -/
def kvExpiry (s : KVStore) (k : String) : Option Nat :=
  match s.find? (fun en => en.key == k) with
  | some en => some en.expiresAt
  | none => none

/-! ## Rate limiting middleware (createRateLimit in rateLimiter.ts)

The returned middleware, for one request: compute the key, GET the current
count (absent key counts as 0), reject with 429 when the count has reached
maxRequests, otherwise SET count+1 with a TTL of ceil(windowMs/1000)
seconds and admit the request.  The whole body sits in one try/catch whose
catch branch logs the error and calls next(), admitting the request.

admitted = true models the middleware calling next() (request allowed),
admitted = false models the 429 response.  caught = true models the catch
branch having run (the fault was logged).  getFails and setFails say
whether the GET round trip, respectively the SET round trip, raises when it
is executed.  The skipSuccessfulRequests / skipFailedRequests post-hoc
decrement is not modelled: both options default to false and no predefined
limiter of the source enables them. -/

structure RateLimitOutcome where
  admitted : Bool
  store : KVStore
  caught : Bool
deriving DecidableEq

def createRateLimit (windowMs maxRequests : Nat) (getFails setFails : Bool)
    (store : KVStore) (key : String) (now : Nat) : RateLimitOutcome :=
  if getFails then ⟨true, store, true⟩
  else
    let requestsKey := "rate_limit:" ++ key
    let currentRequests := (kvGet store requestsKey now).getD 0
    if currentRequests ≥ maxRequests then ⟨false, store, false⟩
    else if setFails then ⟨true, store, true⟩
    else ⟨true, kvSet store requestsKey (currentRequests + 1)
            (now + 1000 * ((windowMs + 999) / 1000)), false⟩

/-! ## Interleaving model of two concurrent requests

The middleware performs its read of the counter (lines 35-39 of
rateLimiter.ts) and its write (line 56) as two separate awaited store round
trips.  A caller is therefore in one of three phases: about to read, has
read and decided to increment to newCount, or finished with an admission
verdict.  A schedule is a list of caller indices; each entry lets that
caller perform its next store round trip. -/

inductive CallerPhase
  | ready
  | decided (newCount : Nat)
  | finished (admitted : Bool)
deriving DecidableEq

/-- One store round trip of one caller of the middleware, at time now on
the shared store: the read step performs the GET plus the comparison
against maxRequests, the write step performs the SET of the incremented
count with a fresh TTL, exactly as the source does. -/
def callerStep (windowMs maxRequests now : Nat) (key : String) :
    CallerPhase × KVStore → CallerPhase × KVStore
  | (CallerPhase.ready, st) =>
      let currentRequests := (kvGet st ("rate_limit:" ++ key) now).getD 0
      if currentRequests ≥ maxRequests then (CallerPhase.finished false, st)
      else (CallerPhase.decided (currentRequests + 1), st)
  | (CallerPhase.decided n, st) =>
      (CallerPhase.finished true,
       kvSet st ("rate_limit:" ++ key) n (now + 1000 * ((windowMs + 999) / 1000)))
  | (CallerPhase.finished b, st) => (CallerPhase.finished b, st)

/-- Run a schedule of caller indices over a pool of concurrent callers of
the middleware sharing one store. -/
def runSchedule (windowMs maxRequests now : Nat) (key : String) :
    List CallerPhase × KVStore → List Nat → List CallerPhase × KVStore
  | st, [] => st
  | (phases, store), i :: rest =>
      match phases[i]? with
      | none => runSchedule windowMs maxRequests now key (phases, store) rest
      | some p =>
          let r := callerStep windowMs maxRequests now key (p, store)
          runSchedule windowMs maxRequests now key (phases.set i r.fst, r.snd) rest

/-- Number of callers that finished admitted. -/
def admittedCount (phases : List CallerPhase) : Nat :=
  phases.countP (fun p => p == CallerPhase.finished true)

/-! ## Generic find-after-replace lemmas for the association stores -/

/-- Finding by a predicate after filtering out every element satisfying it
skips the whole filtered prefix. -/
theorem find?_append_filter {α : Type} (p : α → Bool) (xs ys : List α) :
    ((xs.filter (fun a => !(p a))) ++ ys).find? p = ys.find? p := by
  induction xs with
  | nil => rfl
  | cons a xs ih =>
      cases h : p a with
      | true => simpa [List.filter_cons, h] using ih
      | false => simp [List.filter_cons, h, List.find?_cons, ih]

theorem kvFind_kvSet (s : KVStore) (k : String) (v e : Nat) :
    (kvSet s k v e).find? (fun en => en.key == k) = some ⟨k, v, e⟩ := by
  unfold kvSet
  rw [find?_append_filter (fun en => en.key == k) s [⟨k, v, e⟩]]
  simp [List.find?_cons]

theorem kvGet_kvSet (s : KVStore) (k : String) (v e now : Nat) :
    kvGet (kvSet s k v e) k now = if now < e then some v else none := by
  unfold kvGet
  rw [kvFind_kvSet]

theorem kvExpiry_kvSet (s : KVStore) (k : String) (v e : Nat) :
    kvExpiry (kvSet s k v e) k = some e := by
  unfold kvExpiry
  rw [kvFind_kvSet]

/-! ## Helper step lemmas for the middleware -/

/-- When the current count is below maxRequests the middleware admits and
writes the incremented count with a fresh TTL. -/
theorem createRateLimit_allow (wMs max : Nat) (s : KVStore) (k : String)
    (now cur : Nat) (hget : (kvGet s ("rate_limit:" ++ k) now).getD 0 = cur)
    (hlt : cur < max) :
    createRateLimit wMs max false false s k now
      = ⟨true, kvSet s ("rate_limit:" ++ k) (cur + 1)
          (now + 1000 * ((wMs + 999) / 1000)), false⟩ := by
  have hnot : ¬ (max ≤ cur) := not_le.mpr hlt
  simp [createRateLimit, hget, hnot, hlt]

/-- When the current count has reached maxRequests the middleware rejects
and leaves the store untouched. -/
theorem createRateLimit_reject (wMs max : Nat) (s : KVStore) (k : String)
    (now cur : Nat) (hget : (kvGet s ("rate_limit:" ++ k) now).getD 0 = cur)
    (hge : max ≤ cur) :
    createRateLimit wMs max false false s k now = ⟨false, s, false⟩ := by
  have hyes : (kvGet s ("rate_limit:" ++ k) now).getD 0 ≥ max := by
    rw [hget]; exact hge
  simp [createRateLimit, hyes]

/-- Run a sequence of middleware calls for one key at the given times,
threading the store, and collect the admission verdicts. -/
def runRateCalls (wMs max : Nat) (k : String) : KVStore → List Nat → List Bool
  | _, [] => []
  | s, t :: ts =>
      let r := createRateLimit wMs max false false s k t
      r.admitted :: runRateCalls wMs max k r.store ts

/-- Claim C7: with a window of 60 seconds and maximum 3, four successive
calls for a fresh key return true, true, true, false, and a call after the
window has elapsed since the counter was last written returns true again. -/
theorem rateLimit_sequence_60s_max3 (k : String) (now t5 : Nat)
    (h : now + 60000 ≤ t5) :
    runRateCalls 60000 3 k [] [now, now, now, now, t5]
      = [true, true, true, false, true] := by
  have hE : 1000 * ((60000 + 999) / 1000) = 60000 := by norm_num
  have g1 : (kvGet ([] : KVStore) ("rate_limit:" ++ k) now).getD 0 = 0 := rfl
  have h1 : createRateLimit 60000 3 false false [] k now
      = ⟨true, kvSet [] ("rate_limit:" ++ k) 1 (now + 60000), false⟩ := by
    rw [createRateLimit_allow 60000 3 [] k now 0 g1 (by norm_num), hE]
  have g2 : (kvGet (kvSet [] ("rate_limit:" ++ k) 1 (now + 60000))
      ("rate_limit:" ++ k) now).getD 0 = 1 := by
    rw [kvGet_kvSet, if_pos (by omega)]; rfl
  have h2 : createRateLimit 60000 3 false false
        (kvSet [] ("rate_limit:" ++ k) 1 (now + 60000)) k now
      = ⟨true, kvSet (kvSet [] ("rate_limit:" ++ k) 1 (now + 60000))
          ("rate_limit:" ++ k) 2 (now + 60000), false⟩ := by
    rw [createRateLimit_allow 60000 3 _ k now 1 g2 (by norm_num), hE]
  have g3 : (kvGet (kvSet (kvSet [] ("rate_limit:" ++ k) 1 (now + 60000))
        ("rate_limit:" ++ k) 2 (now + 60000)) ("rate_limit:" ++ k) now).getD 0 = 2 := by
    rw [kvGet_kvSet, if_pos (by omega)]; rfl
  have h3 : createRateLimit 60000 3 false false
        (kvSet (kvSet [] ("rate_limit:" ++ k) 1 (now + 60000))
          ("rate_limit:" ++ k) 2 (now + 60000)) k now
      = ⟨true, kvSet (kvSet (kvSet [] ("rate_limit:" ++ k) 1 (now + 60000))
            ("rate_limit:" ++ k) 2 (now + 60000))
          ("rate_limit:" ++ k) 3 (now + 60000), false⟩ := by
    rw [createRateLimit_allow 60000 3 _ k now 2 g3 (by norm_num), hE]
  have g4 : (kvGet (kvSet (kvSet (kvSet [] ("rate_limit:" ++ k) 1 (now + 60000))
        ("rate_limit:" ++ k) 2 (now + 60000)) ("rate_limit:" ++ k) 3 (now + 60000))
        ("rate_limit:" ++ k) now).getD 0 = 3 := by
    rw [kvGet_kvSet, if_pos (by omega)]; rfl
  have h4 : createRateLimit 60000 3 false false
        (kvSet (kvSet (kvSet [] ("rate_limit:" ++ k) 1 (now + 60000))
          ("rate_limit:" ++ k) 2 (now + 60000)) ("rate_limit:" ++ k) 3 (now + 60000)) k now
      = ⟨false, kvSet (kvSet (kvSet [] ("rate_limit:" ++ k) 1 (now + 60000))
          ("rate_limit:" ++ k) 2 (now + 60000)) ("rate_limit:" ++ k) 3 (now + 60000),
          false⟩ := by
    exact createRateLimit_reject 60000 3 _ k now 3 g4 (by norm_num)
  have g5 : (kvGet (kvSet (kvSet (kvSet [] ("rate_limit:" ++ k) 1 (now + 60000))
        ("rate_limit:" ++ k) 2 (now + 60000)) ("rate_limit:" ++ k) 3 (now + 60000))
        ("rate_limit:" ++ k) t5).getD 0 = 0 := by
    rw [kvGet_kvSet, if_neg (by omega)]; rfl
  have h5 : createRateLimit 60000 3 false false
        (kvSet (kvSet (kvSet [] ("rate_limit:" ++ k) 1 (now + 60000))
          ("rate_limit:" ++ k) 2 (now + 60000)) ("rate_limit:" ++ k) 3 (now + 60000)) k t5
      = ⟨true, kvSet (kvSet (kvSet (kvSet [] ("rate_limit:" ++ k) 1 (now + 60000))
            ("rate_limit:" ++ k) 2 (now + 60000)) ("rate_limit:" ++ k) 3 (now + 60000))
          ("rate_limit:" ++ k) 1 (t5 + 60000), false⟩ := by
    rw [createRateLimit_allow 60000 3 _ k t5 0 g5 (by norm_num), hE]
  simp only [runRateCalls, h1, h2, h3, h4, h5]

/-- Claim C7 witness: the sequence evaluated at a fresh key, four calls at
time 0 and a fifth call 60 seconds later. -/
theorem rateLimit_sequence_60s_max3_witness :
    runRateCalls 60000 3 ("a") [] [0, 0, 0, 0, 60000]
      = [true, true, true, false, true] :=
  rateLimit_sequence_60s_max3 ("a") 0 60000 (by norm_num)

/-- Claim C8 counterexample: the second admitted call at time 30000 is an
increment within the window opened at time 0 (the counter is still live:
its value reads 1 and its expiry is 60000), yet the write performed by the
increment moves the expiry to 90000.  The claim states that increments
within an existing window do not move the expiry. -/
theorem rateLimit_expiry_refresh_counterexample :
    kvGet (createRateLimit 60000 3 false false [] ("k") 0).store
        ("rate_limit:k") 30000 = some 1
  ∧ kvExpiry (createRateLimit 60000 3 false false [] ("k") 0).store
        ("rate_limit:k") = some 60000
  ∧ (createRateLimit 60000 3 false false
        (createRateLimit 60000 3 false false [] ("k") 0).store ("k") 30000).admitted
      = true
  ∧ kvExpiry (createRateLimit 60000 3 false false
        (createRateLimit 60000 3 false false [] ("k") 0).store ("k") 30000).store
        ("rate_limit:k") = some 90000 := by
  decide

/-- Claim C8 amended: every admitted call, not only the (re)initializing
one, writes the counter with a fresh TTL, so the recorded expiry after any
admitted call is now + ceil(windowMs/1000) seconds; expiry remains
enforced by the store itself, whose GET reports an expired key as absent. -/
theorem rateLimit_fresh_expiry_on_every_admit :
    (∀ (wMs max : Nat) (s : KVStore) (k : String) (now : Nat),
        (createRateLimit wMs max false false s k now).admitted = true →
        kvExpiry (createRateLimit wMs max false false s k now).store
            ("rate_limit:" ++ k)
          = some (now + 1000 * ((wMs + 999) / 1000)))
  ∧ (∀ (s : KVStore) (k : String) (now e : Nat),
        kvExpiry s k = some e → e ≤ now → kvGet s k now = none) := by
  constructor
  · intro wMs max s k now hadm
    by_cases hc : (kvGet s ("rate_limit:" ++ k) now).getD 0 ≥ max
    · simp [createRateLimit, hc] at hadm
    · simp [createRateLimit, hc, kvExpiry_kvSet]
  · intro s k now e h1 h2
    unfold kvExpiry at h1
    unfold kvGet
    cases hf : s.find? (fun en => en.key == k) with
    | none => rfl
    | some en =>
        rw [hf] at h1
        simp only [Option.some.injEq] at h1
        show (if now < en.expiresAt then some en.value else none) = none
        rw [if_neg (by omega)]

/-- Claim C8 witness: a concrete admitted call on a fresh key records
expiry 60000 = 0 + 60 seconds, and a concrete store entry whose expiry has
passed reads back as absent. -/
theorem rateLimit_fresh_expiry_on_every_admit_witness :
    kvExpiry (createRateLimit 60000 3 false false [] ("a") 0).store
        ("rate_limit:a") = some 60000
  ∧ kvGet [⟨"x", 5, 10⟩] ("x") 10 = none := by
  constructor
  · have h := rateLimit_fresh_expiry_on_every_admit.1 60000 3 [] ("a") 0 (by decide)
    norm_num at h
    exact h
  · exact rateLimit_fresh_expiry_on_every_admit.2 [⟨"x", 5, 10⟩] ("x") 10 10 rfl
      (le_refl 10)

/-- Claim C9: when the counter store is unreachable, that is when the GET
raises, or the SET raises on a call that got past the limit check, the
middleware catches the fault (logging it) and admits the request with the
store untouched: the limiter fails open, never closed. -/
theorem rateLimit_fails_open (wMs max : Nat) (gF sF : Bool) (s : KVStore)
    (k : String) (now : Nat)
    (h : gF = true ∨ (sF = true ∧ (kvGet s ("rate_limit:" ++ k) now).getD 0 < max)) :
    (createRateLimit wMs max gF sF s k now).admitted = true
  ∧ (createRateLimit wMs max gF sF s k now).caught = true
  ∧ (createRateLimit wMs max gF sF s k now).store = s := by
  rcases h with hg | ⟨hs, hlt⟩
  · subst hg; simp [createRateLimit]
  · subst hs
    cases gF with
    | true => simp [createRateLimit]
    | false => simp [createRateLimit, not_le.mpr hlt]

/-- Claim C9 witness: a concrete call whose GET raises is admitted with the
fault logged and the store unchanged. -/
theorem rateLimit_fails_open_witness :
    (createRateLimit 60000 3 true false [] ("a") 0).admitted = true
  ∧ (createRateLimit 60000 3 true false [] ("a") 0).caught = true
  ∧ (createRateLimit 60000 3 true false [] ("a") 0).store = [] :=
  rateLimit_fails_open 60000 3 true false [] ("a") 0 (Or.inl rfl)

/-- Claim C3: the middleware reads the counter and writes the incremented
counter as two separate store round trips, so two concurrent callers on
the same key can interleave read, read, write, write; with maxRequests = 1
both callers read 0, both pass the comparison and both are admitted,
giving 2 admitted requests in one window where the claim allows at most 1.
This evaluates the two-round-trip code at the failing interleaving. -/
theorem rateLimit_interleaving_exceeds_max :
    admittedCount (runSchedule 60000 1 0 ("k")
        ([CallerPhase.ready, CallerPhase.ready], []) [0, 1, 0, 1]).fst = 2
  ∧ 1 < admittedCount (runSchedule 60000 1 0 ("k")
        ([CallerPhase.ready, CallerPhase.ready], []) [0, 1, 0, 1]).fst := by
  decide

/-! ## SchedulerService: scheduled post dispatch (processScheduledPosts)

The dispatch tick selects rows joined with social_accounts where
status = pending and scheduled_time <= NOW(), ordered by scheduled_time
ascending, limit 10.  For each selected post it calls
SocialMediaService.publishPost inside a per-post try/catch: on success it
updates the row to status = published with posted_at = NOW(), on a thrown
publish error it updates the row to status = failed.  The failure branch
writes only the status column: the error_message column of the
scheduled_posts table is never written, and neither branch calls any
NotificationService function, so the list of notifications emitted by a
tick is empty by construction. -/

inductive PostStatus
  | pending
  | published
  | failed
  | cancelled
deriving DecidableEq

structure ScheduledPost where
  id : Nat
  accountId : Nat
  content : String
  scheduledTime : Nat
  status : PostStatus
  postedAt : Option Nat
  errorMessage : Option String
  createdAt : Nat
deriving DecidableEq

structure SocialAccount where
  id : Nat
  platform : String
  isActive : Bool
deriving DecidableEq

structure SchedulerDb where
  posts : List ScheduledPost
  accounts : List SocialAccount
deriving DecidableEq

/-- Notification that a dispatch tick hands to NotificationService.  The
source tick makes no such call, so values of this type are never produced
by processScheduledPosts; the type records what the claim expects to
observe. -/
structure Emitted where
  userId : Nat
  ntype : String
  message : String
deriving DecidableEq

/-- Insert a post into a list sorted by scheduledTime ascending. -/
def insertPost (p : ScheduledPost) : List ScheduledPost → List ScheduledPost
  | [] => [p]
  | q :: rest =>
      if p.scheduledTime ≤ q.scheduledTime then p :: q :: rest
      else q :: insertPost p rest

/-- Sort posts by scheduledTime ascending (ORDER BY sp.scheduled_time ASC). -/
def sortBySchedTime : List ScheduledPost → List ScheduledPost
  | [] => []
  | p :: rest => insertPost p (sortBySchedTime rest)

/-- Update every row of the posts table with the given id (the UPDATE by id
of the source). -/
def updatePost (posts : List ScheduledPost) (pid : Nat)
    (f : ScheduledPost → ScheduledPost) : List ScheduledPost :=
  posts.map (fun p => if p.id == pid then f p else p)

/-- One dispatch tick.  publish gives the outcome of the platform call for
a post id: none is success, some err is a thrown error with text err.  The
returned list is the notifications the tick emitted through
NotificationService; the source loop contains no NotificationService call,
so this list is always empty, and the failure branch updates only the
status column. -/
def processScheduledPosts (publish : Nat → Option String) (now : Nat)
    (db : SchedulerDb) : SchedulerDb × List Emitted :=
  let due := (sortBySchedTime (db.posts.filter (fun p =>
      p.status == PostStatus.pending && p.scheduledTime ≤ now
        && db.accounts.any (fun a => a.id == p.accountId)))).take 10
  let posts := due.foldl (fun acc post =>
      match publish post.id with
      | none => updatePost acc post.id (fun p =>
          { p with status := PostStatus.published, postedAt := some now })
      | some _err => updatePost acc post.id (fun p =>
          { p with status := PostStatus.failed })) db.posts
  ({ db with posts := posts }, [])

/-- Concrete dispatch database: one connected account and one pending post
due at time 0. -/
def dispatchDbEx : SchedulerDb :=
  { posts := [⟨7, 1, "hello", 0, PostStatus.pending, none, none, 0⟩],
    accounts := [⟨1, "twitter", true⟩] }

/-- Claim C1: evaluation of one dispatch tick at time 100 on a single due
pending post.  When the publish call throws the error text network error,
the post is set to failed but the error text is not recorded
(errorMessage stays none) and no post_failed notification is emitted; when
the publish call succeeds the post is set to published with postedAt = 100
but no post_published notification is emitted either.  The claim states
the error text is recorded on the post and that the corresponding
notifications are emitted. -/
theorem processScheduledPosts_failure_eval :
    (processScheduledPosts (fun _ => some ("network error")) 100 dispatchDbEx).fst.posts
      = [⟨7, 1, "hello", 0, PostStatus.failed, none, none, 0⟩]
  ∧ (processScheduledPosts (fun _ => some ("network error")) 100 dispatchDbEx).snd = []
  ∧ (processScheduledPosts (fun _ => none) 100 dispatchDbEx).fst.posts
      = [⟨7, 1, "hello", 0, PostStatus.published, some 100, none, 0⟩]
  ∧ (processScheduledPosts (fun _ => none) 100 dispatchDbEx).snd = [] := by
  decide

/-! ## SchedulerService.start: cron ticks of one job

SchedulerService.start registers each job as a CronJob whose tick callback
is an async closure that runs the job action; the cron library fires the
callback at every scheduled time without awaiting the promise of the
previous invocation, and SchedulerService keeps no per-job running flag,
so the callback never checks whether a previous invocation is still in
flight.  We track the number of in-flight invocations of one job action:
a tick starts one more invocation, a completion retires one. -/

inductive JobEvent
  | tick
  | complete
deriving DecidableEq

/-- Effect of one cron tick on the number of in-flight invocations of the
job action: the callback installed by SchedulerService.start starts the
action unconditionally. -/
def schedulerTick (running : Nat) : Nat := running + 1

/-- In-flight invocation count after a sequence of tick and completion
events of one job. -/
def runJobTrace (running : Nat) : List JobEvent → Nat
  | [] => running
  | JobEvent.tick :: es => runJobTrace (schedulerTick running) es
  | JobEvent.complete :: es => runJobTrace (running - 1) es

/-- Claim C2: evaluation of the job tick semantics at the failing trace.
When a second tick fires before the first invocation completes, the tick
is not skipped: two invocations of the same job action are then in flight
at once, where the claim says at most one can ever be. -/
theorem schedulerTick_overlap_eval :
    runJobTrace 0 [JobEvent.tick, JobEvent.tick] = 2
  ∧ 1 < runJobTrace 0 [JobEvent.tick, JobEvent.tick] := by
  decide

/-! ## SchedulerService.cleanupOldData (retention sweep)

The sweep runs three batch DELETEs in order, analytics rows older than one
year, chatbot conversation rows older than six months, failed scheduled
posts older than one week, all inside a single try/catch: a thrown error
from one DELETE jumps to the catch, which logs it, so the remaining
DELETEs of that tick are never executed.  Time is counted in days here and
the Postgres intervals are modelled as 365, 183 and 7 days. -/

def oneYear : Nat := 365

def sixMonths : Nat := 183

def oneWeek : Nat := 7

structure CleanupDb where
  analyticsCreatedAt : List Nat
  conversationsCreatedAt : List Nat
  posts : List ScheduledPost
deriving DecidableEq

structure CleanupOutcome where
  db : CleanupDb
  attempted : List String
  caught : Bool
deriving DecidableEq

/-- One retention-sweep tick.  The three Bool flags say whether the
corresponding DELETE raises when executed; attempted lists the DELETE
statements that were executed (including a failing one), in order. -/
def cleanupOldData (analyticsFails conversationsFails postsFails : Bool)
    (now : Nat) (db : CleanupDb) : CleanupOutcome :=
  if analyticsFails then ⟨db, [("analytics")], true⟩
  else
    let db1 := { db with analyticsCreatedAt :=
        db.analyticsCreatedAt.filter (fun t => !(t < now - oneYear)) }
    if conversationsFails then ⟨db1, [("analytics"), ("conversations")], true⟩
    else
      let db2 := { db1 with conversationsCreatedAt :=
          db1.conversationsCreatedAt.filter (fun t => !(t < now - sixMonths)) }
      if postsFails then
        ⟨db2, [("analytics"), ("conversations"), ("failed_posts")], true⟩
      else
        let db3 := { db2 with posts := db2.posts.filter (fun p =>
            !(p.status == PostStatus.failed && p.createdAt < now - oneWeek)) }
        ⟨db3, [("analytics"), ("conversations"), ("failed_posts")], false⟩

/-- Concrete retention database at tick time 1000: an old and a recent
analytics row, an old and a recent conversation row, an old failed post,
a recent failed post and an old pending post. -/
def cleanupDbEx : CleanupDb :=
  { analyticsCreatedAt := [100, 900],
    conversationsCreatedAt := [100, 900],
    posts := [⟨1, 1, "a", 0, PostStatus.failed, none, none, 100⟩,
              ⟨2, 1, "b", 0, PostStatus.failed, none, none, 995⟩,
              ⟨3, 1, "c", 0, PostStatus.pending, none, none, 100⟩] }

/-- Claim C5: evaluation of the retention sweep.  When no DELETE fails,
each category is pruned by its own window: analytics rows older than one
year, conversation rows older than six months and failed posts older than
one week are removed while everything younger, and the pending post, stay.
But when the analytics DELETE raises, the error is caught at tick level
and the conversations and failed-posts DELETEs are never attempted in that
tick, leaving their expired rows in place, where the claim says a failure
in one category does not prevent the other deletions from being
attempted. -/
theorem cleanupOldData_failure_eval :
    cleanupOldData true false false 1000 cleanupDbEx
      = ⟨cleanupDbEx, [("analytics")], true⟩
  ∧ (cleanupOldData false false false 1000 cleanupDbEx).db.analyticsCreatedAt
      = [900]
  ∧ (cleanupOldData false false false 1000 cleanupDbEx).db.conversationsCreatedAt
      = [900]
  ∧ (cleanupOldData false false false 1000 cleanupDbEx).db.posts
      = [⟨2, 1, "b", 0, PostStatus.failed, none, none, 995⟩,
         ⟨3, 1, "c", 0, PostStatus.pending, none, none, 100⟩]
  ∧ (cleanupOldData false false false 1000 cleanupDbEx).attempted
      = [("analytics"), ("conversations"), ("failed_posts")] := by
  decide


/-! ## NotificationService.createNotification

createNotification first queries notification_rules for (user_id, type);
a missing rule row means enabled, a present row decides by its enabled
column.  If disabled the call returns at once.  Otherwise it INSERTs the
durable row (is_read takes the table default false), SADDs the serialized
projection, including an ISO timestamp of the moment of the call, to the
per-user Redis set, reads the set back with SMEMBERS and, when more than
50 members, SREMs the members before the last 50 of the SMEMBERS output.
The whole body sits in one try/catch whose catch branch only logs.

The per-user store is a Redis SET: an unordered collection without
duplicates.  SADD adds a value not yet present and ignores a present one;
SREM removes a value; SMEMBERS returns the members in an order about
which Redis gives no guarantee.  The state of a set is represented here
as a duplicate-free list whose order is a representation artifact: the
program observes the set only through sMembers, which enumerates the
members in an order given by an enumeration parameter ord.  Theorems
quantify over every ord that enumerates each member exactly once (a
permutation), and a counterexample may pick any such order, since the
program may assume nothing about it.  The serialized payload is modelled
field by field, the timestamp as the Nat instant of the call. -/

structure NotificationInput where
  userId : Nat
  ntype : String
  title : String
  message : String
  data : String
deriving DecidableEq

structure NotificationRow where
  userId : Nat
  ntype : String
  title : String
  message : String
  data : String
  isRead : Bool
deriving DecidableEq

structure NotificationRule where
  userId : Nat
  ntype : String
  enabled : Bool
deriving DecidableEq

structure CacheEntry where
  ntype : String
  title : String
  message : String
  data : String
  timestamp : Nat
deriving DecidableEq

abbrev RealtimeCache := List (Nat × List CacheEntry)

/-- Representation of the per-user set: the list of its members.  Only
membership, absence of duplicates and length are meaningful; the position
of a member in this list is not observable by the program, which reads
the set only through sMembers. -/
def cacheGet (c : RealtimeCache) (uid : Nat) : List CacheEntry :=
  match c.find? (fun kv => kv.fst == uid) with
  | some kv => kv.snd
  | none => []

/-- Replace the per-user member list (representation-level helper). -/
def cacheSet (c : RealtimeCache) (uid : Nat) (l : List CacheEntry) :
    RealtimeCache :=
  c.filter (fun kv => !(kv.fst == uid)) ++ [(uid, l)]

/-- Model of RedisService.getSet (Redis SMEMBERS): the members of the
per-user set in an order chosen by the enumeration parameter ord.  Redis
specifies no order for SMEMBERS, so the program may assume about ord only
that it enumerates each member exactly once; theorems carry that as a
permutation hypothesis and nothing more. -/
def sMembers (ord : List CacheEntry → List CacheEntry) (c : RealtimeCache)
    (uid : Nat) : List CacheEntry :=
  ord (cacheGet c uid)

/-- Model of RedisService.addToSet (Redis SADD): add the value to the set
unless already present.  The position at which the representation stores
the new member is invisible to the program, since every read goes through
sMembers. -/
def sAdd (c : RealtimeCache) (uid : Nat) (e : CacheEntry) : RealtimeCache :=
  if e ∈ cacheGet c uid then c else cacheSet c uid (cacheGet c uid ++ [e])

/-- Model of RedisService.removeFromSet (Redis SREM): remove the value. -/
def sRem (c : RealtimeCache) (uid : Nat) (e : CacheEntry) : RealtimeCache :=
  cacheSet c uid ((cacheGet c uid).filter (fun x => !(x == e)))

structure NotifState where
  rules : List NotificationRule
  notifications : List NotificationRow
  realtime : RealtimeCache
deriving DecidableEq

/-- Failure oracle for the three store round trips the claims name: the
rule lookup, the durable INSERT and the Redis SADD. -/
structure NotifOracle where
  ruleLookupFails : Bool
  insertFails : Bool
  cacheAddFails : Bool
deriving DecidableEq

def noFail : NotifOracle := ⟨false, false, false⟩

/-- Enabled decision of the source: no rule row for (user, type) means
enabled, otherwise the first row decides (the table has a UNIQUE
constraint on the pair). -/
def ruleEnabled (s : NotifState) (n : NotificationInput) : Bool :=
  match s.rules.filter (fun r => r.userId == n.userId && r.ntype == n.ntype) with
  | [] => true
  | r :: _ => r.enabled

/-- The durable row the INSERT writes: is_read takes the column default
false. -/
def mkRow (n : NotificationInput) : NotificationRow :=
  ⟨n.userId, n.ntype, n.title, n.message, n.data, false⟩

/-- The real-time projection SADDed to the Redis set, timestamped with the
instant of the call. -/
def mkEntry (n : NotificationInput) (now : Nat) : CacheEntry :=
  ⟨n.ntype, n.title, n.message, n.data, now⟩

/-- The try block of createNotification: the state reached and the
exception raised, if any (the state reflects the round trips completed
before the raising one).  ord is the enumeration order the SMEMBERS read
happens to return; the trim keeps the last 50 elements of that
enumeration and SREMs the ones before them. -/
def createNotificationBody (ord : List CacheEntry → List CacheEntry)
    (o : NotifOracle) (now : Nat) (n : NotificationInput) (s : NotifState) :
    NotifState × Option String :=
  if o.ruleLookupFails then (s, some ("rule lookup failed"))
  else if !(ruleEnabled s n) then (s, none)
  else if o.insertFails then (s, some ("insert failed"))
  else
    let s1 : NotifState := { s with notifications := s.notifications ++ [mkRow n] }
    if o.cacheAddFails then (s1, some ("redis add failed"))
    else
      let s2 : NotifState := { s1 with
        realtime := sAdd s1.realtime n.userId (mkEntry n now) }
      let members := sMembers ord s2.realtime n.userId
      if members.length > 50 then
        let oldest := members.take (members.length - 50)
        ({ s2 with
            realtime := oldest.foldl (fun c e => sRem c n.userId e) s2.realtime },
         none)
      else (s2, none)

/-- createNotification: the try block wrapped in the catch that logs any
raised error and returns normally.  The Bool records whether the catch
branch ran (console.error); the value returned to the caller is void in
both cases, so a caller cannot distinguish a logged failure from
success. -/
def createNotification (ord : List CacheEntry → List CacheEntry)
    (o : NotifOracle) (now : Nat) (n : NotificationInput)
    (s : NotifState) : NotifState × Bool :=
  match createNotificationBody ord o now n s with
  | (s1, some _e) => (s1, true)
  | (s1, none) => (s1, false)

/-! ## Lemmas about the real-time cache -/

theorem cacheFind_cacheSet (c : RealtimeCache) (uid : Nat) (l : List CacheEntry) :
    (cacheSet c uid l).find? (fun kv => kv.fst == uid) = some (uid, l) := by
  unfold cacheSet
  rw [find?_append_filter (fun kv => kv.fst == uid) c [(uid, l)]]
  simp [List.find?_cons]

theorem cacheGet_cacheSet (c : RealtimeCache) (uid : Nat) (l : List CacheEntry) :
    cacheGet (cacheSet c uid l) uid = l := by
  unfold cacheGet
  rw [cacheFind_cacheSet]

theorem cacheGet_sRem (c : RealtimeCache) (uid : Nat) (e : CacheEntry) :
    cacheGet (sRem c uid e) uid = (cacheGet c uid).filter (fun x => !(x == e)) := by
  unfold sRem
  rw [cacheGet_cacheSet]

theorem cacheGet_foldl_sRem (uid : Nat) (xs : List CacheEntry) :
    ∀ c : RealtimeCache,
      cacheGet (xs.foldl (fun c e => sRem c uid e) c) uid
        = xs.foldl (fun m e => m.filter (fun x => !(x == e))) (cacheGet c uid) := by
  induction xs with
  | nil => intro c; rfl
  | cons a xs ih =>
      intro c
      simp only [List.foldl_cons]
      rw [ih (sRem c uid a), cacheGet_sRem]

/-- Filtering away an absent element changes nothing. -/
theorem filter_bne_of_not_mem {α : Type} [DecidableEq α] (m : List α) (a : α)
    (h : a ∉ m) : m.filter (fun x => !(x == a)) = m := by
  induction m with
  | nil => rfl
  | cons x m ih =>
      have hxa : ¬ (x == a) = true := by
        simp only [beq_iff_eq]
        intro hx
        exact h (hx ▸ List.mem_cons_self x m)
      have hx : (x == a) = false := by
        cases hb : (x == a) with
        | true => exact absurd hb hxa
        | false => rfl
      have ham : a ∉ m := fun hm => h (List.mem_cons_of_mem x hm)
      simp [List.filter_cons, hx, ih ham]

/-- Removing one present element from a duplicate-free list shortens it by
exactly one. -/
theorem length_filter_bne_of_mem {α : Type} [DecidableEq α] (l : List α) (x : α)
    (hl : l.Nodup) (hx : x ∈ l) :
    (l.filter (fun y => !(y == x))).length = l.length - 1 := by
  induction l with
  | nil => cases hx
  | cons a l ih =>
      have hnd := List.nodup_cons.mp hl
      by_cases hax : a = x
      · subst hax
        have heq : l.filter (fun y => !(y == a)) = l :=
          filter_bne_of_not_mem l a hnd.1
        have hba : (a == a) = true := beq_self_eq_true a
        simp [List.filter_cons, hba, heq]
      · have hxl : x ∈ l := by
          cases hx with
          | head => exact absurd rfl hax
          | tail _ h => exact h
        have hb : (a == x) = false := by
          cases hc : (a == x) with
          | true => exact absurd (by simpa using hc) hax
          | false => rfl
        have hlen := ih hnd.2 hxl
        have hpos : 1 ≤ l.length := List.length_pos.mpr (List.ne_nil_of_mem hxl)
        simp only [List.filter_cons, hb, Bool.not_false, if_true, List.length_cons,
          hlen]
        omega

/-- Removing, one by one, a duplicate-free batch of present elements from
a duplicate-free list shortens it by the size of the batch. -/
theorem length_removeEach {α : Type} [DecidableEq α] :
    ∀ (xs l : List α), l.Nodup → xs.Nodup → (∀ x ∈ xs, x ∈ l) →
      (xs.foldl (fun acc e => acc.filter (fun y => !(y == e))) l).length
        = l.length - xs.length := by
  intro xs
  induction xs with
  | nil => intro l _ _ _; simp
  | cons x xs ih =>
      intro l hl hxs hsub
      have hx : x ∈ l := hsub x (List.mem_cons_self x xs)
      have hnd := List.nodup_cons.mp hxs
      simp only [List.foldl_cons]
      have hl' : (l.filter (fun y => !(y == x))).Nodup := hl.filter _
      have hsub' : ∀ z ∈ xs, z ∈ l.filter (fun y => !(y == x)) := by
        intro z hz
        have hzl : z ∈ l := hsub z (List.mem_cons_of_mem x hz)
        have hzx : ¬ z = x := fun h => hnd.1 (h ▸ hz)
        rw [List.mem_filter]
        refine ⟨hzl, ?_⟩
        have hb : (z == x) = false := by
          cases hc : (z == x) with
          | true => exact absurd (by simpa using hc) hzx
          | false => rfl
        simp [hb]
      rw [ih _ hl' hnd.2 hsub', length_filter_bne_of_mem l x hl hx]
      have hpos : 1 ≤ l.length := List.length_pos.mpr (List.ne_nil_of_mem hx)
      simp only [List.length_cons]
      omega

/-! ## Evaluation lemmas for createNotification -/

/-- The state returned by createNotification is the state reached by the
try block, whether or not the block raised. -/
theorem notifCreate_fst (ord : List CacheEntry → List CacheEntry)
    (o : NotifOracle) (now : Nat) (n : NotificationInput) (s : NotifState) :
    (createNotification ord o now n s).fst
      = (createNotificationBody ord o now n s).fst := by
  unfold createNotification
  rcases h : createNotificationBody ord o now n s with ⟨s1, e⟩
  cases e <;> simp

/-- A disabled rule makes the call return at once without touching any
state. -/
theorem notifCreate_disabled (ord : List CacheEntry → List CacheEntry)
    (now : Nat) (n : NotificationInput) (s : NotifState)
    (hDis : ruleEnabled s n = false) :
    createNotification ord noFail now n s = (s, false) := by
  unfold createNotification createNotificationBody
  simp [noFail, hDis]

/-- Evaluation of the try block when the type is enabled, no round trip
fails and the projection is not already a member of the set. -/
theorem notifCreateBody_enabled (ord : List CacheEntry → List CacheEntry)
    (now : Nat) (n : NotificationInput) (s : NotifState)
    (hEn : ruleEnabled s n = true)
    (hNm : mkEntry n now ∉ cacheGet s.realtime n.userId) :
    createNotificationBody ord noFail now n s =
      (if (ord (cacheGet s.realtime n.userId ++ [mkEntry n now])).length > 50 then
        (⟨s.rules, s.notifications ++ [mkRow n],
          ((ord (cacheGet s.realtime n.userId ++ [mkEntry n now])).take
              ((ord (cacheGet s.realtime n.userId ++ [mkEntry n now])).length - 50)).foldl
            (fun c e => sRem c n.userId e)
            (cacheSet s.realtime n.userId
              (cacheGet s.realtime n.userId ++ [mkEntry n now]))⟩,
         none)
      else
        (⟨s.rules, s.notifications ++ [mkRow n],
          cacheSet s.realtime n.userId
            (cacheGet s.realtime n.userId ++ [mkEntry n now])⟩,
         none)) := by
  have hadd : sAdd s.realtime n.userId (mkEntry n now)
      = cacheSet s.realtime n.userId (cacheGet s.realtime n.userId ++ [mkEntry n now]) := by
    unfold sAdd
    rw [if_neg hNm]
  unfold createNotificationBody sMembers
  dsimp only [noFail]
  simp only [hEn, Bool.not_true, Bool.false_eq_true, if_false]
  rw [hadd, cacheGet_cacheSet]

/-- The durable log after an enabled, failure-free call is the old log
with exactly the new row appended, whatever order the SMEMBERS read
returned. -/
theorem notifCreate_durable (ord : List CacheEntry → List CacheEntry)
    (now : Nat) (n : NotificationInput) (s : NotifState)
    (hEn : ruleEnabled s n = true)
    (hNm : mkEntry n now ∉ cacheGet s.realtime n.userId) :
    (createNotification ord noFail now n s).fst.notifications
      = s.notifications ++ [mkRow n] := by
  rw [notifCreate_fst, notifCreateBody_enabled ord now n s hEn hNm]
  split <;> rfl

/-- The per-user member list after an enabled, failure-free call: the new
projection is added and, when the set then holds more than 50 members,
the members before the last 50 of the SMEMBERS enumeration are removed
one by one. -/
theorem notifCreate_cache (ord : List CacheEntry → List CacheEntry)
    (now : Nat) (n : NotificationInput) (s : NotifState)
    (hEn : ruleEnabled s n = true)
    (hNm : mkEntry n now ∉ cacheGet s.realtime n.userId) :
    cacheGet (createNotification ord noFail now n s).fst.realtime n.userId
      = if (ord (cacheGet s.realtime n.userId ++ [mkEntry n now])).length > 50
        then ((ord (cacheGet s.realtime n.userId ++ [mkEntry n now])).take
                ((ord (cacheGet s.realtime n.userId ++ [mkEntry n now])).length - 50)).foldl
              (fun m e => m.filter (fun x => !(x == e)))
              (cacheGet s.realtime n.userId ++ [mkEntry n now])
        else cacheGet s.realtime n.userId ++ [mkEntry n now] := by
  rw [notifCreate_fst, notifCreateBody_enabled ord now n s hEn hNm]
  by_cases h : (ord (cacheGet s.realtime n.userId ++ [mkEntry n now])).length > 50
  · rw [if_pos h, if_pos h]
    show cacheGet (((ord (cacheGet s.realtime n.userId ++ [mkEntry n now])).take
        ((ord (cacheGet s.realtime n.userId ++ [mkEntry n now])).length - 50)).foldl
        (fun c e => sRem c n.userId e)
        (cacheSet s.realtime n.userId
          (cacheGet s.realtime n.userId ++ [mkEntry n now]))) n.userId = _
    rw [cacheGet_foldl_sRem, cacheGet_cacheSet]
  · rw [if_neg h, if_neg h]
    show cacheGet (cacheSet s.realtime n.userId
        (cacheGet s.realtime n.userId ++ [mkEntry n now])) n.userId = _
    rw [cacheGet_cacheSet]

/-! ## Concrete notification states for the claims -/

def notifInputEx : NotificationInput := ⟨1, "system_alert", "t", "m", "d"⟩

def notifState0 : NotifState := ⟨[], [], []⟩

def notifRuleOff : NotificationRule := ⟨1, "system_alert", false⟩

def notifStateOff : NotifState := ⟨[notifRuleOff], [], []⟩

def notifInput51 : NotificationInput := ⟨1, "system_alert", "", "", ""⟩

/-- State after 51 failure-free creates for user 1, one per instant 0..50,
starting from the empty state with no rules, with an SMEMBERS enumeration
that happens to return the representation order (the 50-cap and the
durable count below are independent of that choice). -/
def run51 : NotifState :=
  (List.range 51).foldl
    (fun s i => (createNotification id noFail i notifInput51 s).fst) notifState0

def cache50 : List CacheEntry :=
  (List.range 50).map (fun i => ⟨"system_alert", "", "", "", i⟩)

def notifState50 : NotifState :=
  ⟨[], (List.range 50).map (fun _ => mkRow notifInput51), [(1, cache50)]⟩

set_option maxRecDepth 32768 in
/-- Claim C4 counterexample: a user whose set holds the 50 projections
timestamped 0..49 receives a 51st, timestamped 50.  SMEMBERS may return
the members in any order; when it returns them newest first (reversal of
the representation list, a permutation of the members, as the first
conjunct certifies), the trim keeps the last 50 of that enumeration and
so evicts the just-added newest entry while the oldest entry, timestamp
0, survives.  The claim states the evicted entries are the oldest by
insertion order (FIFO), which would keep timestamp 50 and evict timestamp
0. -/
theorem createNotification_fifo_counterexample :
    ((cache50 ++ [mkEntry notifInput51 50]).reverse).Perm
        (cache50 ++ [mkEntry notifInput51 50])
  ∧ mkEntry notifInput51 50
      ∉ cacheGet (createNotification List.reverse noFail 50 notifInput51
          notifState50).fst.realtime 1
  ∧ (⟨"system_alert", "", "", "", 0⟩ : CacheEntry)
      ∈ cacheGet (createNotification List.reverse noFail 50 notifInput51
          notifState50).fst.realtime 1
  ∧ (cacheGet (createNotification List.reverse noFail 50 notifInput51
          notifState50).fst.realtime 1).length = 50 :=
  ⟨List.reverse_perm _, by decide, by decide, by decide⟩

set_option maxRecDepth 32768 in
/-- Claim C4 amended: after any enabled failure-free create whose
projection is new, and for every member enumeration the SMEMBERS read may
return, the per-user real-time set holds at most 50 members, the durable
log is only appended to, never pruned, by this path, and when the insert
pushes the set past 50 members exactly 50 remain: the trim removes the
members before the last 50 of the enumeration the store happened to
return, an unspecified order rather than insertion order.  A 51st insert
therefore leaves exactly 50 cache members while the durable log retains
all 51, as the closing conjuncts evaluate. -/
theorem createNotification_cache_bound
    (ord : List CacheEntry → List CacheEntry) (hord : ∀ l, (ord l).Perm l)
    (now : Nat) (n : NotificationInput) (s : NotifState)
    (hEn : ruleEnabled s n = true)
    (hNd : (cacheGet s.realtime n.userId).Nodup)
    (hNm : mkEntry n now ∉ cacheGet s.realtime n.userId) :
    ((cacheGet (createNotification ord noFail now n s).fst.realtime n.userId).length
        ≤ 50
  ∧ (createNotification ord noFail now n s).fst.notifications
      = s.notifications ++ [mkRow n]
  ∧ (50 < (cacheGet s.realtime n.userId).length + 1 →
      (cacheGet (createNotification ord noFail now n s).fst.realtime n.userId).length
        = 50))
  ∧ ((cacheGet run51.realtime 1).length = 50
  ∧ run51.notifications.length = 51) := by
  have hNdm : (cacheGet s.realtime n.userId ++ [mkEntry n now]).Nodup := by
    rw [List.nodup_append]
    refine ⟨hNd, List.nodup_singleton _, ?_⟩
    intro a ha hb
    rw [List.mem_singleton] at hb
    exact hNm (hb ▸ ha)
  have homl : (ord (cacheGet s.realtime n.userId ++ [mkEntry n now])).length
      = (cacheGet s.realtime n.userId).length + 1 := by
    rw [(hord _).length_eq]
    simp
  have hlen : (cacheGet (createNotification ord noFail now n s).fst.realtime
        n.userId).length
      = if (ord (cacheGet s.realtime n.userId ++ [mkEntry n now])).length > 50
        then 50 else (cacheGet s.realtime n.userId).length + 1 := by
    rw [notifCreate_cache ord now n s hEn hNm]
    by_cases h : (ord (cacheGet s.realtime n.userId ++ [mkEntry n now])).length > 50
    · rw [if_pos h, if_pos h]
      have hOrdNd : (ord (cacheGet s.realtime n.userId ++ [mkEntry n now])).Nodup :=
        ((hord _).nodup_iff).mpr hNdm
      have hTakeNd : ((ord (cacheGet s.realtime n.userId ++ [mkEntry n now])).take
          ((ord (cacheGet s.realtime n.userId ++ [mkEntry n now])).length - 50)).Nodup :=
        hOrdNd.sublist (List.take_sublist _ _)
      have hsub : ∀ x ∈ (ord (cacheGet s.realtime n.userId ++ [mkEntry n now])).take
          ((ord (cacheGet s.realtime n.userId ++ [mkEntry n now])).length - 50),
          x ∈ cacheGet s.realtime n.userId ++ [mkEntry n now] := by
        intro x hx
        exact ((hord _).mem_iff).mp (List.mem_of_mem_take hx)
      rw [length_removeEach _ _ hNdm hTakeNd hsub, List.length_take,
        Nat.min_eq_left (by omega)]
      have hml : (cacheGet s.realtime n.userId ++ [mkEntry n now]).length
          = (cacheGet s.realtime n.userId).length + 1 := by simp
      omega
    · rw [if_neg h, if_neg h]
      simp
  refine ⟨⟨?_, notifCreate_durable ord now n s hEn hNm, ?_⟩, by decide⟩
  · rw [hlen]
    split <;> omega
  · intro h50
    rw [hlen, if_pos (by omega)]

set_option maxRecDepth 32768 in
/-- Claim C4 witness: a user whose real-time set already holds 50 distinct
members receives a 51st notification under the identity enumeration; the
hypotheses hold, the set ends with exactly 50 members and the durable log
has grown by the new row. -/
theorem createNotification_cache_bound_witness :
    (ruleEnabled notifState50 notifInput51 = true
  ∧ (cacheGet notifState50.realtime 1).Nodup
  ∧ mkEntry notifInput51 50 ∉ cacheGet notifState50.realtime 1)
  ∧ ((cacheGet (createNotification id noFail 50 notifInput51
        notifState50).fst.realtime 1).length ≤ 50
  ∧ (createNotification id noFail 50 notifInput51 notifState50).fst.notifications
      = notifState50.notifications ++ [mkRow notifInput51]
  ∧ (50 < (cacheGet notifState50.realtime 1).length + 1 →
      (cacheGet (createNotification id noFail 50 notifInput51
        notifState50).fst.realtime 1).length = 50)) := by
  refine ⟨⟨by decide, by decide, by decide⟩, ?_⟩
  exact (createNotification_cache_bound id (fun l => List.Perm.refl l) 50
    notifInput51 notifState50 (by decide) (by decide) (by decide)).1

set_option maxRecDepth 32768 in
/-- Claim C6 counterexample: user 1 has no rule row for the type, so the
create is not suppressed and the durable row is written, yet with the set
already at 50 members and an SMEMBERS enumeration returning the members
newest first (a permutation, as certified), the trim inside the same call
evicts the just-added entry: after the call the real-time cache does not
hold it.  The claim states such a call writes both the durable row and
the real-time cache entry. -/
theorem createNotification_entry_evicted_counterexample :
    notifState50.rules.filter (fun q => q.userId == notifInput51.userId
        && q.ntype == notifInput51.ntype) = []
  ∧ ((cache50 ++ [mkEntry notifInput51 50]).reverse).Perm
        (cache50 ++ [mkEntry notifInput51 50])
  ∧ (createNotification List.reverse noFail 50 notifInput51
        notifState50).fst.notifications
      = notifState50.notifications ++ [mkRow notifInput51]
  ∧ mkEntry notifInput51 50
      ∉ cacheGet (createNotification List.reverse noFail 50 notifInput51
          notifState50).fst.realtime 1 :=
  ⟨by decide, List.reverse_perm _, by decide, by decide⟩

/-- Claim C6 amended: when a rule row exists for (user, type) and is
disabled, the call is a complete no-op, state unchanged and nothing
logged; when no rule row exists the type counts as enabled and the call
appends the durable row, with isRead false, and adds the real-time
projection to the set — and the projection is still in the cache after
the call whenever the set held fewer than 50 members before the insert
(with 50 or more, the trim that follows may evict it, depending on the
unspecified SMEMBERS order). -/
theorem createNotification_rule_gate
    (ord : List CacheEntry → List CacheEntry) (hord : ∀ l, (ord l).Perm l)
    (now : Nat) (n : NotificationInput) (s : NotifState) :
    (∀ (r : NotificationRule) (rest : List NotificationRule),
        s.rules.filter (fun q => q.userId == n.userId && q.ntype == n.ntype)
          = r :: rest →
        r.enabled = false →
        createNotification ord noFail now n s = (s, false))
  ∧ (s.rules.filter (fun q => q.userId == n.userId && q.ntype == n.ntype) = [] →
      mkEntry n now ∉ cacheGet s.realtime n.userId →
      (createNotification ord noFail now n s).fst.notifications
          = s.notifications ++ [mkRow n]
      ∧ ((cacheGet s.realtime n.userId).length + 1 ≤ 50 →
          mkEntry n now ∈
            cacheGet (createNotification ord noFail now n s).fst.realtime
              n.userId)) := by
  constructor
  · intro r rest hfil hr
    have hDis : ruleEnabled s n = false := by
      unfold ruleEnabled
      rw [hfil]
      exact hr
    exact notifCreate_disabled ord now n s hDis
  · intro hfil hNm
    have hEn : ruleEnabled s n = true := by
      unfold ruleEnabled
      rw [hfil]
    refine ⟨notifCreate_durable ord now n s hEn hNm, ?_⟩
    intro hcap
    have homl : (ord (cacheGet s.realtime n.userId ++ [mkEntry n now])).length
        = (cacheGet s.realtime n.userId).length + 1 := by
      rw [(hord _).length_eq]
      simp
    rw [notifCreate_cache ord now n s hEn hNm, if_neg (by omega)]
    exact List.mem_append_right _ (List.mem_singleton_self _)

/-- Claim C6 witness: a user with a disabled rule for the type gets a
complete no-op; a user with no rule row and an empty set gets both the
durable row and the real-time entry, still present after the call. -/
theorem createNotification_rule_gate_witness :
    createNotification id noFail 0 notifInputEx notifStateOff
      = (notifStateOff, false)
  ∧ ((createNotification id noFail 0 notifInputEx notifState0).fst.notifications
      = notifState0.notifications ++ [mkRow notifInputEx]
  ∧ mkEntry notifInputEx 0 ∈
      cacheGet (createNotification id noFail 0 notifInputEx
        notifState0).fst.realtime 1) := by
  constructor
  · exact (createNotification_rule_gate id (fun l => List.Perm.refl l) 0
      notifInputEx notifStateOff).1 notifRuleOff [] (by decide) rfl
  · have h := (createNotification_rule_gate id (fun l => List.Perm.refl l) 0
      notifInputEx notifState0).2 rfl (by decide)
    exact ⟨h.1, h.2 (by decide)⟩

/-- Claim C10: createNotification catches every failure of its store round
trips inside the call and returns normally, the raised error becoming only
a log line: a failing rule lookup or a failing durable INSERT leaves the
state untouched, and a failing Redis SADD leaves the durable row written
but no cache entry; in each case the value returned to the caller is the
same void as on success, so the loss is silent.  This holds for every
enumeration order of the set, since the failing paths never reach the
SMEMBERS read. -/
theorem createNotification_never_raises
    (ord : List CacheEntry → List CacheEntry) (o : NotifOracle) (now : Nat)
    (n : NotificationInput) (s : NotifState) :
    (o.ruleLookupFails = true → createNotification ord o now n s = (s, true))
  ∧ (o.ruleLookupFails = false → ruleEnabled s n = true → o.insertFails = true →
      createNotification ord o now n s = (s, true))
  ∧ (o.ruleLookupFails = false → ruleEnabled s n = true → o.insertFails = false →
      o.cacheAddFails = true →
      createNotification ord o now n s
        = ({ s with notifications := s.notifications ++ [mkRow n] }, true)) := by
  refine ⟨?_, ?_, ?_⟩
  · intro h1
    simp [createNotification, createNotificationBody, h1]
  · intro h1 h2 h3
    simp [createNotification, createNotificationBody, h1, h2, h3]
  · intro h1 h2 h3 h4
    simp [createNotification, createNotificationBody, h1, h2, h3, h4]

/-- Claim C10 witness: the three failure points evaluated on a concrete
input, each returning normally with the documented state. -/
theorem createNotification_never_raises_witness :
    createNotification id ⟨true, false, false⟩ 0 notifInputEx notifState0
      = (notifState0, true)
  ∧ createNotification id ⟨false, true, false⟩ 0 notifInputEx notifState0
      = (notifState0, true)
  ∧ createNotification id ⟨false, false, true⟩ 0 notifInputEx notifState0
      = ({ notifState0 with notifications := [mkRow notifInputEx] }, true) := by
  refine ⟨?_, ?_, ?_⟩
  · exact (createNotification_never_raises id ⟨true, false, false⟩ 0 notifInputEx
      notifState0).1 rfl
  · exact (createNotification_never_raises id ⟨false, true, false⟩ 0 notifInputEx
      notifState0).2.1 rfl rfl rfl
  · exact (createNotification_never_raises id ⟨false, false, true⟩ 0 notifInputEx
      notifState0).2.2 rfl rfl rfl rfl
